import Mathlib

/-
  Verification development for the AI-gateway consent route and the
  anonymous-identity migration callback of the agents workflow builder.

  Shallow embedding conventions:
  * JavaScript exceptions (rejected promises, thrown errors) are modelled by
    `Except Unit`; `Except.error ()` is a propagating exception.
  * JavaScript `null` / `undefined` is modelled by `Option`; JS truthiness of
    a string value is `s ≠ ""` (the empty string is falsy).
  * A `fetch` call is modelled by its outcome `FetchOutcome α`: either the
    promise rejects (network failure), or an HTTP response arrives carrying
    an `ok` flag and a body whose JSON-parse outcome is `Except Unit α`
    (parsing only happens where the source calls `.json()`).
  * The encryption collaborator fused with JSON stringify/parse is a pair
    `enc : Json → γ`, `dec : γ → Except Unit Json` over an opaque ciphertext
    type `γ`; `dec` returning `Except.error ()` covers both a decrypt
    exception and a JSON.parse exception.
  * The database tables are lists of rows; drizzle's `findFirst` is
    `List.find?`; the generated-id outcome of an insert and the outcomes of
    the provider calls are inputs of the model, so every run of a handler is
    a pure function of its environment.
  * Each handler returns its response outcome together with the list of
    observable events (provider network calls, local row deletion) in the
    order the source issues them.
-/

namespace AWB

/-- A JSON value as this route manipulates them: a string, or a flat object
whose fields are strings.  The config payloads written and read by the route
are exactly of this shape. -/
inductive Json where
  | str : String → Json
  | obj : List (String × String) → Json
deriving DecidableEq, Repr

/-- Field access `j.k` on a parsed JSON value: `none` when the value is not
an object or the key is absent (JS `undefined`). -/
def lookupField (k : String) : List (String × String) → Option String
  | [] => none
  | (k2, v) :: rest => if k2 = k then some v else lookupField k rest

/-- `getStr j k` models the optional-chained property read `j?.k`. -/
def getStr (j : Json) (k : String) : Option String :=
  match j with
  | .str _ => none
  | .obj fields => lookupField k fields

/-- JS truthiness of an optional string: present and non-empty. -/
def truthy (o : Option String) : Bool :=
  match o with
  | none => false
  | some s => decide (s ≠ "")

/-- Outcome of a `fetch` call: the promise rejects (network failure), or an
HTTP response arrives with its `ok` flag and the JSON-parse outcome of its
body (consulted only where the source calls `.json()`). -/
inductive FetchOutcome (α : Type) where
  | reject : FetchOutcome α
  | resp : Bool → Except Unit α → FetchOutcome α

/-- One element of the `teams` array of `GET /v2/teams`. -/
structure Team where
  id : String
  limited : Bool
deriving DecidableEq, Repr

/-- Body of the `GET /v2/teams` response; the `teams` field may be absent
(the source reads it with `teamsData.teams?`). -/
structure TeamsBody where
  teams : Option (List Team)
deriving DecidableEq, Repr

/-- Body of the `GET /login/oauth/userinfo` response. -/
structure UserinfoBody where
  sub : String
deriving DecidableEq, Repr

/-- Observable events of a handler run, in issue order. -/
inductive Ev where
  | fetchTeams
  | fetchUserinfo
  | fetchCreateKey (teamId : String)
  | fetchDeleteKey (apiKeyId : String) (teamId : String)
  | dbDeleteIntegration (id : String)
deriving DecidableEq, Repr

/-- The userinfo fallback tail of `getTeamId` (source lines 31-41): fetch the
userinfo endpoint; a rejected fetch or an unparseable body throws; a non-2xx
response returns `null`; otherwise the `sub` field is returned. -/
def userinfoFallback (userinfoCall : FetchOutcome UserinfoBody) :
    List Ev × Except Unit (Option String) :=
  match userinfoCall with
  | .reject => ([.fetchUserinfo], .error ())
  | .resp ok body =>
    if ok then
      match body with
      | .error _ => ([.fetchUserinfo], .error ())
      | .ok u => ([.fetchUserinfo], .ok (some u.sub))
    else ([.fetchUserinfo], .ok none)

/-- `getTeamId` (source lines 15-42): try `GET /v2/teams`; on a 2xx response
pick the first team whose `limited` flag is false; otherwise fall back to the
userinfo endpoint.  A rejected fetch or an unparseable consulted body throws
(there is no try/catch in the source function). -/
def getTeamId (teamsCall : FetchOutcome TeamsBody)
    (userinfoCall : FetchOutcome UserinfoBody) :
    List Ev × Except Unit (Option String) :=
  match teamsCall with
  | .reject => ([.fetchTeams], .error ())
  | .resp ok body =>
    if ok then
      match body with
      | .error _ => ([.fetchTeams], .error ())
      | .ok tb =>
        match (tb.teams.getD []).find? (fun t => !t.limited) with
        | some t => ([.fetchTeams], .ok (some t.id))
        | none =>
          let (evs, r) := userinfoFallback userinfoCall
          (.fetchTeams :: evs, r)
    else
      let (evs, r) := userinfoFallback userinfoCall
      (.fetchTeams :: evs, r)

/-- The object nested under the `apiKey` field of the key-creation response. -/
structure ApiKeyObj where
  id : String
deriving DecidableEq, Repr

/-- Body of the `POST /v1/api-keys` response; both fields may be absent
(the source guards `apiKeyString` with a truthiness check and reads the id
with the optional chain `newKey.apiKey?.id`). -/
structure CreateKeyBody where
  apiKeyString : Option String
  apiKey : Option ApiKeyObj
deriving DecidableEq, Repr

/-- Return value of `createVercelApiKey`: the captured token string and the
result of the optional chain `newKey.apiKey?.id` (which the source annotates
as `string` but which is absent when the response has no `apiKey` object). -/
structure CreatedKey where
  token : String
  id : Option String
deriving DecidableEq, Repr

/-- `createVercelApiKey` (source lines 47-81): `POST /v1/api-keys?teamId=...`.
A non-2xx response or a response with a falsy `apiKeyString` yields `none`;
a rejected fetch or an unparseable 2xx body throws (caught by the caller's
try block); otherwise the token and the optionally-chained key id are
returned. -/
def createVercelApiKey (call : FetchOutcome CreateKeyBody) (teamId : String) :
    List Ev × Except Unit (Option CreatedKey) :=
  match call with
  | .reject => ([.fetchCreateKey teamId], .error ())
  | .resp ok body =>
    if ok then
      match body with
      | .error _ => ([.fetchCreateKey teamId], .error ())
      | .ok b =>
        match b.apiKeyString with
        | none => ([.fetchCreateKey teamId], .ok none)
        | some s =>
          if s = "" then ([.fetchCreateKey teamId], .ok none)
          else ([.fetchCreateKey teamId],
                .ok (some ⟨s, b.apiKey.map (fun k => k.id)⟩))
    else ([.fetchCreateKey teamId], .ok none)

/-- The plaintext config object built by `saveIntegration` (source line 100):
`JSON.stringify` of `\x7b apiKey, managedKeyId: apiKeyId, teamId \x7d`.
When `apiKeyId` is absent (JS `undefined`), `JSON.stringify` drops the
`managedKeyId` field entirely. -/
def mkConfig (apiKey : String) (apiKeyId : Option String) (teamId : String) : Json :=
  .obj ([("apiKey", apiKey)]
    ++ (match apiKeyId with
        | some k => [("managedKeyId", k)]
        | none => [])
    ++ [("teamId", teamId)])

/-- The column values of an integration row as written by the grant path
(the store generates the `id`, which is not part of the values clause). -/
structure IntegrationValues (γ : Type) where
  userId : String
  name : String
  type : String
  config : γ
  isManaged : Bool
deriving DecidableEq, Repr

/-- Outcome of the store insert: the statement threw, or it completed
returning an optional generated id (`row?.id` in the source). -/
inductive InsertOutcome where
  | threw : InsertOutcome
  | returned : Option String → InsertOutcome
deriving DecidableEq, Repr

/-- `saveIntegration` (source lines 96-121): encrypt the JSON config and
insert a new integration row with `type = "ai-gateway"` and
`isManaged = true`.  Returns the written values (when the insert did not
throw) and the generated id, throwing when the store returns no id. -/
def saveIntegration {γ : Type} (enc : Json → γ) (ins : InsertOutcome)
    (userId apiKey : String) (apiKeyId : Option String)
    (teamId teamName : String) :
    Option (IntegrationValues γ) × Except Unit String :=
  let vals : IntegrationValues γ :=
    { userId := userId
      name := teamName
      type := "ai-gateway"
      config := enc (mkConfig apiKey apiKeyId teamId)
      isManaged := true }
  match ins with
  | .threw => (none, .error ())
  | .returned none => (some vals, .error ())
  | .returned (some id) => (some vals, .ok id)

/-- A row of the `accounts` table. -/
structure Account where
  userId : String
  providerId : String
  accessToken : Option String
deriving DecidableEq, Repr

/-- `db.query.accounts.findFirst(\x7b where: eq(accounts.userId, userId) \x7d)`:
the first account row for the user, with no filter on the provider. -/
def findAccount (table : List Account) (userId : String) : Option Account :=
  table.find? (fun a => a.userId == userId)

/-- The `teamId` / `teamName` fields read from the request body. -/
structure BodyFields where
  teamId : Option String
  teamName : Option String
deriving DecidableEq, Repr

/-- Environment of one run of the grant handler: the feature flag, the
session, the accounts table, the body-parse outcome, and the outcomes of
the provider calls and the store insert it may perform. -/
structure GrantEnv where
  featureEnabled : Bool
  session : Option String
  accountsTable : List Account
  body : Except Unit BodyFields
  teamsCall : FetchOutcome TeamsBody
  userinfoCall : FetchOutcome UserinfoBody
  createCall : FetchOutcome CreateKeyBody
  insertOutcome : InsertOutcome

/-- The response outcome of the grant handler; `thrown` is an exception that
escaped the handler (no `Response.json` was produced by its code). -/
inductive PostResult where
  | featureDisabled
  | notAuthenticated
  | noVercelAccount
  | noTeam
  | createFailed
  | success (managedIntegrationId : String)
  | thrown
deriving DecidableEq, Repr

/-- HTTP status of each response the grant handler produces. -/
def PostResult.status : PostResult → Nat
  | .featureDisabled => 403
  | .notAuthenticated => 401
  | .noVercelAccount => 400
  | .noTeam => 500
  | .createFailed => 500
  | .success _ => 200
  | .thrown => 500

/-- Result of one grant run: the response, the events in issue order, and
the integration row values written by the insert (when one was persisted). -/
structure GrantOutput (γ : Type) where
  result : PostResult
  events : List Ev
  written : Option (IntegrationValues γ)
deriving DecidableEq, Repr

/-- The truthy team id supplied by the request body, if any: a body-parse
failure is caught and treated as an absent body (source lines 166-174), and
an absent or empty `teamId` field is falsy. -/
def suppliedTeamId (body : Except Unit BodyFields) : Option String :=
  match body with
  | .error _ => none
  | .ok b =>
    match b.teamId with
    | none => none
    | some t => if t = "" then none else some t

/-- The team-selection step of the grant handler (source lines 165-179):
a truthy `teamId` from the parsed body is used verbatim with no events;
otherwise `getTeamId` is invoked. -/
def selectTeam (env : GrantEnv) : List Ev × Except Unit (Option String) :=
  match suppliedTeamId env.body with
  | some t => ([], .ok (some t))
  | none => getTeamId env.teamsCall env.userinfoCall

/-- The `teamName` field read from the request body (`null` when the body
failed to parse). -/
def bodyTeamName (body : Except Unit BodyFields) : Option String :=
  match body with
  | .error _ => none
  | .ok b => b.teamName

/-- `teamName || "AI Gateway"` (source line 202): the display name defaults
to the constant when the body's `teamName` is absent or falsy. -/
def displayName (teamName : Option String) : String :=
  match teamName with
  | none => "AI Gateway"
  | some n => if n = "" then "AI Gateway" else n

/-- The try block of the grant handler (source lines 188-216): key creation
followed by the integration insert; a thrown exception or a `null` creation
result is mapped to the generic creation failure. -/
def grantTryBlock {γ : Type} (enc : Json → γ)
    (createCall : FetchOutcome CreateKeyBody) (ins : InsertOutcome)
    (userId teamId : String) (teamName : Option String) : GrantOutput γ :=
  match createVercelApiKey createCall teamId with
  | (evs1, .error _) => ⟨.createFailed, evs1, none⟩
  | (evs1, .ok none) => ⟨.createFailed, evs1, none⟩
  | (evs1, .ok (some key)) =>
    match saveIntegration enc ins userId key.token key.id teamId
        (displayName teamName) with
    | (written, .error _) => ⟨.createFailed, evs1, written⟩
    | (written, .ok iid) => ⟨.success iid, evs1, written⟩

/-- The grant handler past its account gate (source lines 165-216): team
selection (an exception from `getTeamId` escapes, since it runs outside the
try block), then the try block. -/
def grantWithToken {γ : Type} (enc : Json → γ) (env : GrantEnv)
    (userId : String) : GrantOutput γ :=
  match selectTeam env with
  | (evs0, .error _) => ⟨.thrown, evs0, none⟩
  | (evs0, .ok tid) =>
    if !truthy tid then ⟨.noTeam, evs0, none⟩
    else
      match tid with
      | none => ⟨.noTeam, evs0, none⟩
      | some teamId =>
        let out := grantTryBlock enc env.createCall env.insertOutcome
          userId teamId (bodyTeamName env.body)
        ⟨out.result, evs0 ++ out.events, out.written⟩

/-- `POST /api/ai-gateway/consent` (source lines 144-217): feature gate,
session gate, account lookup (first row for the user id, no provider
filter) and the linked-account check, then the team-selection and creation
stages. -/
def grantPOST {γ : Type} (enc : Json → γ) (env : GrantEnv) : GrantOutput γ :=
  if !env.featureEnabled then ⟨.featureDisabled, [], none⟩
  else
    match env.session with
    | none => ⟨.notAuthenticated, [], none⟩
    | some userId =>
      if userId = "" then ⟨.notAuthenticated, [], none⟩
      else
        match findAccount env.accountsTable userId with
        | none => ⟨.noVercelAccount, [], none⟩
        | some account =>
          if !truthy account.accessToken then ⟨.noVercelAccount, [], none⟩
          else if account.providerId ≠ "vercel" then ⟨.noVercelAccount, [], none⟩
          else grantWithToken enc env userId

/-- A row of the `integrations` table as the revoke handler reads it: the
`config` column is nullable ciphertext of type `γ`. -/
structure IntegrationRow (γ : Type) where
  id : String
  userId : String
  name : String
  type : String
  config : Option γ
  isManaged : Bool
deriving DecidableEq, Repr

/-- `db.query.integrations.findFirst` with the four-way `and` of the revoke
handler (source lines 244-251): id, owner, the fixed type discriminator and
the managed flag. -/
def findManagedIntegration {γ : Type} (table : List (IntegrationRow γ))
    (integrationId userId : String) : Option (IntegrationRow γ) :=
  table.find? (fun r =>
    r.id == integrationId && r.userId == userId
      && r.type == "ai-gateway" && r.isManaged)

/-- Environment of one run of the revoke handler.  `remoteDeleteRejects`
records whether the `deleteVercelApiKey` fetch would reject; the handler
wraps that call in try/catch, so the flag influences nothing it returns. -/
structure RevokeEnv (γ : Type) where
  featureEnabled : Bool
  session : Option String
  integrationIdParam : Option String
  integrationsTable : List (IntegrationRow γ)
  accountsTable : List Account
  remoteDeleteRejects : Bool

/-- The response outcome of the revoke handler. -/
inductive DeleteResult where
  | featureDisabled
  | notAuthenticated
  | missingParam
  | notFound
  | revokeSuccess
deriving DecidableEq, Repr

/-- HTTP status of each response the revoke handler produces;
`revokeSuccess` is the `200 \x7b success: true, hasManagedKey: false \x7d`
response. -/
def DeleteResult.status : DeleteResult → Nat
  | .featureDisabled => 403
  | .notAuthenticated => 401
  | .missingParam => 400
  | .notFound => 404
  | .revokeSuccess => 200

/-- The best-effort remote-cleanup block of the revoke handler (source lines
257-284): decode the config (a decrypt or parse exception is caught,
leaving it `null`); when both decoded fields are truthy and the user's first
account row carries a truthy access token, issue the remote key-deletion
call (whose own failure the source catches).  Returns the provider-call
events this block issues. -/
def remoteCleanupEvents {γ : Type} (dec : γ → Except Unit Json)
    (accountsTable : List Account) (userId : String)
    (row : IntegrationRow γ) : List Ev :=
  match row.config with
  | none => []
  | some c =>
    match dec c with
    | .error _ => []
    | .ok j =>
      match getStr j "managedKeyId", getStr j "teamId" with
      | some k, some t =>
        if k = "" || t = "" then []
        else
          match findAccount accountsTable userId with
          | none => []
          | some account =>
            match account.accessToken with
            | none => []
            | some tok =>
              if tok = "" then [] else [.fetchDeleteKey k t]
      | _, _ => []

/-- `DELETE /api/ai-gateway/consent` (source lines 224-291): feature gate,
session gate, required `integrationId` query parameter, four-way row lookup,
best-effort config decode (a decrypt or parse exception is caught, leaving
the config `null`), best-effort remote key deletion (only when both decoded
fields are truthy and an account with a truthy access token exists; its own
failure is caught), then unconditional local row deletion and the success
response. -/
def revokeDELETE {γ : Type} (dec : γ → Except Unit Json) (env : RevokeEnv γ) :
    DeleteResult × List Ev :=
  if !env.featureEnabled then (.featureDisabled, [])
  else
    match env.session with
    | none => (.notAuthenticated, [])
    | some userId =>
      if userId = "" then (.notAuthenticated, [])
      else
        match env.integrationIdParam with
        | none => (.missingParam, [])
        | some integrationId =>
          if integrationId = "" then (.missingParam, [])
          else
            match findManagedIntegration env.integrationsTable integrationId userId with
            | none => (.notFound, [])
            | some row =>
              (.revokeSuccess,
               remoteCleanupEvents dec env.accountsTable userId row
                 ++ [.dbDeleteIntegration row.id])

/-- A row of one of the three migrated tables, restricted to the columns the
migration callback reads and writes: the primary key and the owner column. -/
structure OwnedRow where
  id : String
  userId : String
deriving DecidableEq, Repr

/-- One drizzle `update(table).set(\x7b userId: toUserId \x7d)
.where(eq(table.userId, fromUserId))` applied to a single row. -/
def reassignOwner (fromUserId toUserId : String) (r : OwnedRow) : OwnedRow :=
  if r.userId = fromUserId then { r with userId := toUserId } else r

/-- The three tables touched by the identity migration. -/
structure MigrationState where
  workflows : List OwnedRow
  workflowExecutions : List OwnedRow
  integrations : List OwnedRow
deriving DecidableEq, Repr

/-- `onLinkAccount` (auth configuration, lines 66-104): three sequential
bulk updates rewriting the owner column from the anonymous user id to the
real user id on workflows, workflow executions and integrations. -/
def onLinkAccount (fromUserId toUserId : String) (s : MigrationState) :
    MigrationState :=
  { workflows := s.workflows.map (reassignOwner fromUserId toUserId)
    workflowExecutions :=
      s.workflowExecutions.map (reassignOwner fromUserId toUserId)
    integrations := s.integrations.map (reassignOwner fromUserId toUserId) }

/-- The codec's decode direction, built from the primitives the revoke
handler uses (source lines 258-266): decrypt-and-parse via `dec`, then read
the record's three fields the way the handler reads `config?.managedKeyId`
and `config?.teamId`; a missing field or an undecodable payload is a decode
failure. -/
def decodeConfig {γ : Type} (dec : γ → Except Unit Json) (c : γ) :
    Except Unit (String × String × String) :=
  match dec c with
  | .error _ => .error ()
  | .ok j =>
    match getStr j "apiKey", getStr j "managedKeyId", getStr j "teamId" with
    | some a, some m, some t => .ok (a, m, t)
    | _, _, _ => .error ()

/-! ### Concrete environments used by closed theorems -/

/-- A grant environment whose user has a `github` account row ahead of a
fully usable `vercel` row in the accounts table. -/
def envProviderOrder : GrantEnv :=
  { featureEnabled := true
    session := some "u1"
    accountsTable := [⟨"u1", "github", some "gt"⟩, ⟨"u1", "vercel", some "vt"⟩]
    body := .ok ⟨some "t1", none⟩
    teamsCall := .reject
    userinfoCall := .reject
    createCall := .resp true (.ok ⟨some "ak_123", none⟩)
    insertOutcome := .returned (some "int_1") }

/-- A grant environment whose user's only account row is a `vercel` row
with a non-null but empty access token. -/
def envEmptyToken : GrantEnv :=
  { envProviderOrder with accountsTable := [⟨"u1", "vercel", some ""⟩] }

/-- A grant environment with a usable `vercel` account whose key-creation
response carries `apiKeyString` but no `apiKey` object. -/
def envMissingApiKeyObj : GrantEnv :=
  { envProviderOrder with accountsTable := [⟨"u1", "vercel", some "vt"⟩] }

/-- A grant environment whose body supplies `teamId` explicitly but as the
empty string, and whose team-listing call would return an eligible team. -/
def envEmptyTeamSupplied : GrantEnv :=
  { envMissingApiKeyObj with
      body := .ok ⟨some "", none⟩
      teamsCall := .resp true (.ok ⟨some [⟨"tX", false⟩]⟩) }

/-- A grant environment with no body-supplied team whose team-listing fetch
rejects. -/
def envResolverRejects : GrantEnv :=
  { envMissingApiKeyObj with body := .ok ⟨none, none⟩ }

/-- A grant environment whose remote key creation succeeds but whose store
insert completes without returning a generated id. -/
def envInsertFails : GrantEnv :=
  { envMissingApiKeyObj with insertOutcome := .returned none }

/-- A revoke environment whose managed row decodes to a config with both
revocation fields, so the remote-deletion attempt is made. -/
def envRevokeManaged : RevokeEnv Json :=
  { featureEnabled := true
    session := some "u1"
    integrationIdParam := some "i1"
    integrationsTable := [⟨"i1", "u1", "n", "ai-gateway",
      some (Json.obj [("apiKey", "ak"), ("managedKeyId", "k1"),
        ("teamId", "t1")]), true⟩]
    accountsTable := [⟨"u1", "vercel", some "vt"⟩]
    remoteDeleteRejects := false }

/-! ### Helper lemmas -/

/-- The userinfo fallback always issues exactly the userinfo fetch. -/
lemma userinfoFallback_events (uc : FetchOutcome UserinfoBody) :
    (userinfoFallback uc).1 = [.fetchUserinfo] := by
  rcases uc with _ | ⟨ok, body⟩
  · rfl
  · rcases ok <;> rcases body <;> rfl

/-- The team resolver issues the teams fetch, optionally followed by the
userinfo fetch, and nothing else. -/
lemma getTeamId_events (tc : FetchOutcome TeamsBody)
    (uc : FetchOutcome UserinfoBody) :
    (getTeamId tc uc).1 = [.fetchTeams]
      ∨ (getTeamId tc uc).1 = [.fetchTeams, .fetchUserinfo] := by
  rcases tc with _ | ⟨ok, body⟩
  · exact Or.inl rfl
  · rcases ok
    · right
      simp [getTeamId, userinfoFallback_events]
    · rcases body with e | tb
      · exact Or.inl rfl
      · rcases h : (tb.teams.getD []).find? (fun t => !t.limited) with _ | t
        · right
          simp [getTeamId, h, userinfoFallback_events]
        · left
          simp [getTeamId, h]

/-- The key-creation call always issues exactly the creation fetch. -/
lemma createVercelApiKey_events (c : FetchOutcome CreateKeyBody)
    (teamId : String) :
    (createVercelApiKey c teamId).1 = [.fetchCreateKey teamId] := by
  rcases c with _ | ⟨ok, body⟩
  · rfl
  · rcases ok
    · rfl
    · rcases body with e | b
      · rfl
      · rcases hs : b.apiKeyString with _ | s
        · simp [createVercelApiKey, hs]
        · by_cases hse : s = "" <;> simp [createVercelApiKey, hs, hse]

/-- Team selection issues resolver fetches only. -/
lemma selectTeam_events (env : GrantEnv) (e : Ev) :
    e ∈ (selectTeam env).1 → e = .fetchTeams ∨ e = .fetchUserinfo := by
  intro he
  have hg := getTeamId_events env.teamsCall env.userinfoCall
  unfold selectTeam at he
  rcases hsup : suppliedTeamId env.body with _ | t <;> rw [hsup] at he
  · rcases hg with h | h <;> rw [h] at he <;> simp at he <;> tauto
  · simp at he

/-! ### Claims about the Team Resolver (C6, C2) -/

/-- Claim C6: for every access token, the Team Resolver returns the id of
the first team in the provider's team list whose `limited` flag is false;
if the team call fails (non-2xx), the list is empty or absent, or all teams
are limited, it returns the `sub` field of the userinfo response; if the
userinfo call also fails (non-2xx), it returns `null`. -/
theorem getTeamId_resolution (tb : TeamsBody) (ub : UserinfoBody)
    (b1 : Except Unit TeamsBody) (b2 b3 : Except Unit UserinfoBody) :
    (∀ t, (tb.teams.getD []).find? (fun x => !x.limited) = some t →
      ∀ uc, (getTeamId (.resp true (.ok tb)) uc).2 = .ok (some t.id))
    ∧ ((tb.teams.getD []).find? (fun x => !x.limited) = none →
        (getTeamId (.resp true (.ok tb)) (.resp true (.ok ub))).2
          = .ok (some ub.sub))
    ∧ ((getTeamId (.resp false b1) (.resp true (.ok ub))).2 = .ok (some ub.sub))
    ∧ ((getTeamId (.resp false b1) (.resp false b2)).2 = .ok none)
    ∧ ((tb.teams.getD []).find? (fun x => !x.limited) = none →
        (getTeamId (.resp true (.ok tb)) (.resp false b3)).2 = .ok none) := by
  refine ⟨?_, ?_, ?_, ?_, ?_⟩
  · intro t ht uc
    simp [getTeamId, ht]
  · intro h
    simp [getTeamId, h, userinfoFallback]
  · simp [getTeamId, userinfoFallback]
  · simp [getTeamId, userinfoFallback]
  · intro h
    simp [getTeamId, h, userinfoFallback]

/-- Witness for `getTeamId_resolution`, at the spec's scenario: the team
list holds a limited team `t1` followed by an eligible team `t2`, and the
resolver picks `t2` without consulting the userinfo endpoint. -/
theorem getTeamId_resolution_witness :
    (getTeamId (.resp true (.ok ⟨some [⟨"t1", true⟩, ⟨"t2", false⟩]⟩))
        (.resp false (.error ()))).2 = .ok (some "t2") :=
  (getTeamId_resolution ⟨some [⟨"t1", true⟩, ⟨"t2", false⟩]⟩ ⟨"s"⟩
      (.error ()) (.error ()) (.error ())).1 ⟨"t2", false⟩ (by decide)
    (.resp false (.error ()))

/-- Claim C2 counterexample: a transport-level failure (rejected fetch
promise) at the team-listing call is NOT treated like an empty response:
`getTeamId` has no try/catch, so the exception propagates to its caller,
and since the `POST` handler invokes `getTeamId` outside its try block, the
exception escapes the handler instead of yielding the null signal. -/
theorem getTeamId_reject_propagates :
    (getTeamId .reject (.resp true (.ok ⟨"s1"⟩))).2 = .error ()
    ∧ (getTeamId (.resp false (.error ())) .reject).2 = .error ()
    ∧ (grantPOST (fun j => j) envResolverRejects).result = .thrown := by
  refine ⟨rfl, rfl, rfl⟩

/-- Claim C2 as amended: provided each provider call that is consulted
returns an HTTP response (its fetch promise does not reject) with a
JSON-parseable body, `getTeamId` lets no exception propagate, and a non-2xx
status at either call is treated identically to an empty/ineligible
response, the caller receiving only the null signal. -/
theorem getTeamId_no_throw_on_http_responses (tb : TeamsBody)
    (ub : UserinfoBody) (o1 o2 : Bool) (b1 : Except Unit TeamsBody)
    (b2 : Except Unit UserinfoBody) (uc : FetchOutcome UserinfoBody) :
    (∃ r, (getTeamId (.resp o1 (.ok tb)) (.resp o2 (.ok ub))).2 = .ok r)
    ∧ ((getTeamId (.resp false b1) uc).2
        = (getTeamId (.resp true (.ok ⟨some []⟩)) uc).2)
    ∧ ((userinfoFallback (.resp false b2)).2 = .ok none) := by
  refine ⟨?_, ?_, rfl⟩
  · rcases o1
    · rcases o2
      · exact ⟨none, by simp [getTeamId, userinfoFallback]⟩
      · exact ⟨some ub.sub, by simp [getTeamId, userinfoFallback]⟩
    · rcases h : (tb.teams.getD []).find? (fun x => !x.limited) with _ | t
      · rcases o2
        · exact ⟨none, by simp [getTeamId, userinfoFallback, h]⟩
        · exact ⟨some ub.sub, by simp [getTeamId, userinfoFallback, h]⟩
      · exact ⟨some t.id, by simp [getTeamId, h]⟩
  · simp [getTeamId]

/-! ### Claim about the Secure Config Codec (C9) -/

/-- Claim C9: for every record of strings, decoding the encoding of the
record (decrypt then JSON-parse of the encrypt of the JSON-serialization,
exactly as `saveIntegration` builds it on source lines 100-102) yields the
original record, assuming the encryption collaborator satisfies
`dec (enc x) = x`. -/
theorem configCodec_roundtrip {γ : Type} (enc : Json → γ)
    (dec : γ → Except Unit Json) (h : ∀ j, dec (enc j) = .ok j)
    (apiKey managedKeyId teamId : String) :
    decodeConfig dec (enc (mkConfig apiKey (some managedKeyId) teamId))
      = .ok (apiKey, managedKeyId, teamId) := by
  unfold decodeConfig
  rw [h]
  rfl

/-- Witness for `configCodec_roundtrip`, instantiating the encryption
collaborator with the identity codec on `Json`. -/
theorem configCodec_roundtrip_witness :
    decodeConfig Except.ok ((fun j => j) (mkConfig "ak_123" (some "key_1") "t2"))
      = .ok ("ak_123", "key_1", "t2") :=
  configCodec_roundtrip (fun j => j) Except.ok (fun _ => rfl) "ak_123" "key_1" "t2"

/-! ### Claim about the Identity Migration Handler (C8) -/

/-- Reassignment leaves no row owned by the stale id when the two ids
differ. -/
lemma reassignOwner_ne_fromUserId (fromUserId toUserId : String)
    (h : fromUserId ≠ toUserId) (r : OwnedRow) :
    (reassignOwner fromUserId toUserId r).userId ≠ fromUserId := by
  unfold reassignOwner
  split_ifs with hr
  · simpa using fun hh => h hh.symm
  · simpa using hr

/-- Reassignment is idempotent on a single row. -/
lemma reassignOwner_idem (fromUserId toUserId : String) (r : OwnedRow) :
    reassignOwner fromUserId toUserId (reassignOwner fromUserId toUserId r)
      = reassignOwner fromUserId toUserId r := by
  unfold reassignOwner
  by_cases hr : r.userId = fromUserId
  · simp only [hr, if_pos]
    by_cases ht : toUserId = fromUserId <;> simp [ht]
  · simp [hr]

/-- Claim C8: the identity migration handler is idempotent per
`(anonymousUserId, realUserId)` pair: one run rewrites every row owned by
the anonymous id (in all three tables) to the real id, leaving zero rows
matching the stale id, and a second run with the same pair changes no
rows. -/
theorem onLinkAccount_idempotent_migration (fromUserId toUserId : String)
    (h : fromUserId ≠ toUserId) (s : MigrationState) :
    (∀ r : OwnedRow, r.userId = fromUserId →
      reassignOwner fromUserId toUserId r = ⟨r.id, toUserId⟩)
    ∧ (∀ r ∈ (onLinkAccount fromUserId toUserId s).workflows,
        r.userId ≠ fromUserId)
    ∧ (∀ r ∈ (onLinkAccount fromUserId toUserId s).workflowExecutions,
        r.userId ≠ fromUserId)
    ∧ (∀ r ∈ (onLinkAccount fromUserId toUserId s).integrations,
        r.userId ≠ fromUserId)
    ∧ onLinkAccount fromUserId toUserId (onLinkAccount fromUserId toUserId s)
        = onLinkAccount fromUserId toUserId s := by
  have hmap : ∀ rs : List OwnedRow,
      ∀ r ∈ rs.map (reassignOwner fromUserId toUserId), r.userId ≠ fromUserId := by
    intro rs r hr
    rcases List.mem_map.1 hr with ⟨r0, _, rfl⟩
    exact reassignOwner_ne_fromUserId fromUserId toUserId h r0
  refine ⟨?_, hmap s.workflows, hmap s.workflowExecutions, hmap s.integrations, ?_⟩
  · intro r hr
    simp [reassignOwner, hr]
  · have hcomp : reassignOwner fromUserId toUserId ∘ reassignOwner fromUserId toUserId
        = reassignOwner fromUserId toUserId :=
      funext (reassignOwner_idem fromUserId toUserId)
    simp [onLinkAccount, List.map_map, hcomp]

/-- Witness for `onLinkAccount_idempotent_migration`, at the spec's
scenario: two workflow rows and one integration row owned by `a1`, migrated
to `r1`. -/
theorem onLinkAccount_idempotent_migration_witness :
    (∀ r : OwnedRow, r.userId = "a1" → reassignOwner "a1" "r1" r = ⟨r.id, "r1"⟩)
    ∧ (∀ r ∈ (onLinkAccount "a1" "r1"
          ⟨[⟨"w1", "a1"⟩, ⟨"w2", "a1"⟩], [], [⟨"i1", "a1"⟩]⟩).workflows,
        r.userId ≠ "a1")
    ∧ (∀ r ∈ (onLinkAccount "a1" "r1"
          ⟨[⟨"w1", "a1"⟩, ⟨"w2", "a1"⟩], [], [⟨"i1", "a1"⟩]⟩).workflowExecutions,
        r.userId ≠ "a1")
    ∧ (∀ r ∈ (onLinkAccount "a1" "r1"
          ⟨[⟨"w1", "a1"⟩, ⟨"w2", "a1"⟩], [], [⟨"i1", "a1"⟩]⟩).integrations,
        r.userId ≠ "a1")
    ∧ onLinkAccount "a1" "r1" (onLinkAccount "a1" "r1"
          ⟨[⟨"w1", "a1"⟩, ⟨"w2", "a1"⟩], [], [⟨"i1", "a1"⟩]⟩)
        = onLinkAccount "a1" "r1"
            ⟨[⟨"w1", "a1"⟩, ⟨"w2", "a1"⟩], [], [⟨"i1", "a1"⟩]⟩ :=
  onLinkAccount_idempotent_migration "a1" "r1" (by decide)
    ⟨[⟨"w1", "a1"⟩, ⟨"w2", "a1"⟩], [], [⟨"i1", "a1"⟩]⟩

/-! ### Claims about the revoke handler (C3, C4) -/

/-- The remote-cleanup block issues either nothing or exactly one remote
key-deletion call. -/
lemma remoteCleanupEvents_shape {γ : Type} (dec : γ → Except Unit Json)
    (accountsTable : List Account) (userId : String)
    (row : IntegrationRow γ) :
    remoteCleanupEvents dec accountsTable userId row = []
      ∨ ∃ k t, remoteCleanupEvents dec accountsTable userId row
          = [.fetchDeleteKey k t] := by
  rcases hc : row.config with _ | c
  · exact Or.inl (by simp [remoteCleanupEvents, hc])
  · rcases hdec : dec c with e | j
    · exact Or.inl (by simp [remoteCleanupEvents, hc, hdec])
    · rcases hk : getStr j "managedKeyId" with _ | k
      · exact Or.inl (by simp [remoteCleanupEvents, hc, hdec, hk])
      · rcases ht : getStr j "teamId" with _ | t
        · exact Or.inl (by simp [remoteCleanupEvents, hc, hdec, hk, ht])
        · by_cases hk0 : k = ""
          · exact Or.inl (by simp [remoteCleanupEvents, hc, hdec, hk, ht, hk0])
          · by_cases ht0 : t = ""
            · exact Or.inl (by simp [remoteCleanupEvents, hc, hdec, hk, ht, hk0, ht0])
            · rcases ha : findAccount accountsTable userId with _ | a
              · exact Or.inl
                  (by simp [remoteCleanupEvents, hc, hdec, hk, ht, hk0, ht0, ha])
              · rcases htok : a.accessToken with _ | tok
                · exact Or.inl
                    (by simp [remoteCleanupEvents, hc, hdec, hk, ht, hk0, ht0, ha, htok])
                · by_cases htok0 : tok = ""
                  · exact Or.inl (by
                      simp [remoteCleanupEvents, hc, hdec, hk, ht, hk0, ht0, ha,
                        htok, htok0])
                  · exact Or.inr ⟨k, t, by
                      simp [remoteCleanupEvents, hc, hdec, hk, ht, hk0, ht0, ha,
                        htok, htok0]⟩

/-- On the path where the managed row is found, the revoke handler returns
the success response and the remote-cleanup events followed by the local
deletion. -/
lemma revokeDELETE_found {γ : Type} (dec : γ → Except Unit Json)
    (env : RevokeEnv γ) (u iid : String) (row : IntegrationRow γ)
    (hF : env.featureEnabled = true)
    (hS : env.session = some u) (hu : u ≠ "")
    (hP : env.integrationIdParam = some iid) (hi : iid ≠ "")
    (hfind : findManagedIntegration env.integrationsTable iid u = some row) :
    revokeDELETE dec env
      = (.revokeSuccess,
         remoteCleanupEvents dec env.accountsTable u row
           ++ [.dbDeleteIntegration row.id]) := by
  simp [revokeDELETE, hF, hS, hu, hP, hi, hfind]

/-- Every run of the revoke handler produces one of three event traces:
no effects (a gate or the lookup failed), the local deletion alone, or the
remote-deletion attempt immediately followed by the local deletion; the
response is the 200 success exactly when the local deletion happened. -/
lemma revokeDELETE_shape {γ : Type} (dec : γ → Except Unit Json)
    (env : RevokeEnv γ) :
    ((revokeDELETE dec env).2 = [] ∧ (revokeDELETE dec env).1 ≠ .revokeSuccess)
    ∨ (∃ rid, (revokeDELETE dec env).2 = [.dbDeleteIntegration rid]
        ∧ (revokeDELETE dec env).1 = .revokeSuccess)
    ∨ (∃ k t rid, (revokeDELETE dec env).2
          = [.fetchDeleteKey k t, .dbDeleteIntegration rid]
        ∧ (revokeDELETE dec env).1 = .revokeSuccess) := by
  rcases hF : env.featureEnabled
  · exact Or.inl (by simp [revokeDELETE, hF])
  · rcases hS : env.session with _ | u
    · exact Or.inl (by simp [revokeDELETE, hF, hS])
    · by_cases hu : u = ""
      · exact Or.inl (by simp [revokeDELETE, hF, hS, hu])
      · rcases hP : env.integrationIdParam with _ | iid
        · exact Or.inl (by simp [revokeDELETE, hF, hS, hu, hP])
        · by_cases hi : iid = ""
          · exact Or.inl (by simp [revokeDELETE, hF, hS, hu, hP, hi])
          · rcases hfind : findManagedIntegration env.integrationsTable iid u
              with _ | row
            · exact Or.inl (by simp [revokeDELETE, hF, hS, hu, hP, hi, hfind])
            · have hrun := revokeDELETE_found dec env u iid row hF hS hu hP hi hfind
              rcases remoteCleanupEvents_shape dec env.accountsTable u row
                with hsh | ⟨k, t, hsh⟩
              · refine Or.inr (Or.inl ⟨row.id, ?_, ?_⟩)
                · rw [hrun, hsh]
                  rfl
                · rw [hrun]
              · refine Or.inr (Or.inr ⟨k, t, row.id, ?_, ?_⟩)
                · rw [hrun, hsh]
                  rfl
                · rw [hrun]

/-- Claim C3: for every revoke request whose integration row is found but
whose config fails to decode (a decrypt or JSON-parse exception), the
remote deletion call is never issued, the local row is still deleted, and
the response is the 200 success with the managed-key flag now false. -/
theorem revoke_decode_failure_still_deletes {γ : Type}
    (dec : γ → Except Unit Json) (env : RevokeEnv γ) (u iid : String)
    (row : IntegrationRow γ) (c : γ)
    (hF : env.featureEnabled = true)
    (hS : env.session = some u) (hu : u ≠ "")
    (hP : env.integrationIdParam = some iid) (hi : iid ≠ "")
    (hfind : findManagedIntegration env.integrationsTable iid u = some row)
    (hc : row.config = some c) (hdec : dec c = .error ()) :
    (revokeDELETE dec env).1 = .revokeSuccess
    ∧ (revokeDELETE dec env).1.status = 200
    ∧ (revokeDELETE dec env).2 = [.dbDeleteIntegration row.id] := by
  have hclean : remoteCleanupEvents dec env.accountsTable u row = [] := by
    simp [remoteCleanupEvents, hc, hdec]
  have hrun : revokeDELETE dec env
      = (.revokeSuccess, [.dbDeleteIntegration row.id]) := by
    rw [revokeDELETE_found dec env u iid row hF hS hu hP hi hfind, hclean]
    rfl
  rw [hrun]
  exact ⟨rfl, rfl, rfl⟩

/-- Witness for `revoke_decode_failure_still_deletes`: a found managed row
whose ciphertext fails to decrypt; the row is deleted with no remote call
and the response is the 200 success. -/
theorem revoke_decode_failure_still_deletes_witness :
    (revokeDELETE (fun _ => (.error () : Except Unit Json))
        { featureEnabled := true
          session := some "u1"
          integrationIdParam := some "i1"
          integrationsTable := [⟨"i1", "u1", "n", "ai-gateway", some "cipher", true⟩]
          accountsTable := [⟨"u1", "vercel", some "vt"⟩]
          remoteDeleteRejects := false }).1 = .revokeSuccess
    ∧ (revokeDELETE (fun _ => (.error () : Except Unit Json))
        { featureEnabled := true
          session := some "u1"
          integrationIdParam := some "i1"
          integrationsTable := [⟨"i1", "u1", "n", "ai-gateway", some "cipher", true⟩]
          accountsTable := [⟨"u1", "vercel", some "vt"⟩]
          remoteDeleteRejects := false }).1.status = 200
    ∧ (revokeDELETE (fun _ => (.error () : Except Unit Json))
        { featureEnabled := true
          session := some "u1"
          integrationIdParam := some "i1"
          integrationsTable := [⟨"i1", "u1", "n", "ai-gateway", some "cipher", true⟩]
          accountsTable := [⟨"u1", "vercel", some "vt"⟩]
          remoteDeleteRejects := false }).2 = [.dbDeleteIntegration "i1"] :=
  revoke_decode_failure_still_deletes (fun _ => .error ()) _ "u1" "i1"
    ⟨"i1", "u1", "n", "ai-gateway", some "cipher", true⟩ "cipher"
    rfl rfl (by decide) rfl (by decide) rfl rfl rfl

/-- Claim C4: in every execution of the revoke operation the local row
deletion happens strictly after the remote-deletion attempt when one is
made (the trace is never local-then-remote, and no trace deletes the local
row with a remote attempt still pending), the 200 success is returned
whenever the local deletion happened, and the response and trace do not
depend on whether the remote delete call succeeded. -/
theorem revoke_local_delete_last {γ : Type} (dec : γ → Except Unit Json)
    (env : RevokeEnv γ) :
    ((revokeDELETE dec env).2 = []
      ∨ (∃ rid, (revokeDELETE dec env).2 = [.dbDeleteIntegration rid])
      ∨ (∃ k t rid, (revokeDELETE dec env).2
            = [.fetchDeleteKey k t, .dbDeleteIntegration rid]))
    ∧ (∀ k t, .fetchDeleteKey k t ∈ (revokeDELETE dec env).2 →
        ∃ rid, (revokeDELETE dec env).2
          = [.fetchDeleteKey k t, .dbDeleteIntegration rid])
    ∧ (∀ rid, .dbDeleteIntegration rid ∈ (revokeDELETE dec env).2 →
        (revokeDELETE dec env).1 = .revokeSuccess
          ∧ (revokeDELETE dec env).1.status = 200)
    ∧ (∀ b, revokeDELETE dec { env with remoteDeleteRejects := b }
          = revokeDELETE dec env) := by
  rcases revokeDELETE_shape dec env with ⟨hev, hres⟩ | ⟨rid, hev, hres⟩
    | ⟨k, t, rid, hev, hres⟩
  · refine ⟨Or.inl hev, ?_, ?_, fun b => rfl⟩
    · intro k t hmem
      rw [hev] at hmem
      simp at hmem
    · intro rid hmem
      rw [hev] at hmem
      simp at hmem
  · refine ⟨Or.inr (Or.inl ⟨rid, hev⟩), ?_, ?_, fun b => rfl⟩
    · intro k t hmem
      rw [hev] at hmem
      simp at hmem
    · intro rid2 hmem
      refine ⟨hres, ?_⟩
      rw [hres]
      rfl
  · refine ⟨Or.inr (Or.inr ⟨k, t, rid, hev⟩), ?_, ?_, fun b => rfl⟩
    · intro k2 t2 hmem
      rw [hev] at hmem
      simp at hmem
      rcases hmem with ⟨hk, ht⟩
      subst hk
      subst ht
      exact ⟨rid, hev⟩
    · intro rid2 hmem
      refine ⟨hres, ?_⟩
      rw [hres]
      rfl

/-- Witness for `revoke_local_delete_last`: at a run that does make a
remote-deletion attempt, the trace is exactly remote-then-local. -/
theorem revoke_local_delete_last_witness :
    ∃ rid, (revokeDELETE Except.ok envRevokeManaged).2
      = [.fetchDeleteKey "k1" "t1", .dbDeleteIntegration rid] :=
  (revoke_local_delete_last Except.ok envRevokeManaged).2.1 "k1" "t1"
    (by decide)

/-! ### Claims about the grant handler (C5, C7, C10, C1) -/

/-- Whatever `saveIntegration` reports, any row it persisted carries the
fixed discriminator, the managed flag and the encrypted config built from
its arguments. -/
lemma saveIntegration_written {γ : Type} (enc : Json → γ) (ins : InsertOutcome)
    (userId apiKey : String) (apiKeyId : Option String)
    (teamId teamName : String) (r : IntegrationValues γ)
    (h : (saveIntegration enc ins userId apiKey apiKeyId teamId teamName).1
        = some r) :
    r = ⟨userId, teamName, "ai-gateway", enc (mkConfig apiKey apiKeyId teamId),
         true⟩ := by
  rcases ins with _ | oid
  · simp [saveIntegration] at h
  · rcases oid with _ | id <;>
      simpa [saveIntegration] using h.symm

/-- The try block always issues exactly the key-creation fetch, ends in the
generic creation failure or in success, and any row it persisted carries
the fixed discriminator, the managed flag and a config built with the
selected team id. -/
lemma grantTryBlock_spec {γ : Type} (enc : Json → γ)
    (createCall : FetchOutcome CreateKeyBody) (ins : InsertOutcome)
    (userId teamId : String) (teamName : Option String) :
    (grantTryBlock enc createCall ins userId teamId teamName).events
        = [.fetchCreateKey teamId]
    ∧ ((grantTryBlock enc createCall ins userId teamId teamName).result
          = .createFailed
        ∨ ∃ iid, (grantTryBlock enc createCall ins userId teamId teamName).result
            = .success iid)
    ∧ (∀ r, (grantTryBlock enc createCall ins userId teamId teamName).written
          = some r →
        ∃ tok kid, r.userId = userId ∧ r.type = "ai-gateway"
          ∧ r.isManaged = true ∧ r.config = enc (mkConfig tok kid teamId)) := by
  have hev := createVercelApiKey_events createCall teamId
  rcases hcr : createVercelApiKey createCall teamId with ⟨evs1, cr⟩
  rw [hcr] at hev
  simp only at hev
  subst hev
  rcases cr with e | key
  · refine ⟨?_, Or.inl ?_, ?_⟩ <;> simp [grantTryBlock, hcr]
  · rcases key with _ | key
    · refine ⟨?_, Or.inl ?_, ?_⟩ <;> simp [grantTryBlock, hcr]
    · have hwr : ∀ nm r,
          (saveIntegration enc ins userId key.token key.id teamId nm).1
            = some r →
          ∃ tok kid, r.userId = userId ∧ r.type = "ai-gateway"
            ∧ r.isManaged = true ∧ r.config = enc (mkConfig tok kid teamId) := by
        intro nm r hr
        have := saveIntegration_written enc ins userId key.token key.id
          teamId nm r hr
        exact ⟨key.token, key.id, by simp [this]⟩
      rcases hsv : saveIntegration enc ins userId key.token key.id teamId
        (displayName teamName) with ⟨written, saveRes⟩
      rcases saveRes with e | iid
      · refine ⟨?_, Or.inl ?_, ?_⟩
        · simp [grantTryBlock, hcr, hsv]
        · simp [grantTryBlock, hcr, hsv]
        · intro r hr
          simp only [grantTryBlock, hcr, hsv] at hr
          exact hwr (displayName teamName) r (by rw [hsv]; exact hr)
      · refine ⟨?_, Or.inr ⟨iid, ?_⟩, ?_⟩
        · simp [grantTryBlock, hcr, hsv]
        · simp [grantTryBlock, hcr, hsv]
        · intro r hr
          simp only [grantTryBlock, hcr, hsv] at hr
          exact hwr (displayName teamName) r (by rw [hsv]; exact hr)

/-- Past the account gate, the grant flow can only end in the thrown,
no-team, creation-failure or success outcomes. -/
lemma grantWithToken_result {γ : Type} (enc : Json → γ) (env : GrantEnv)
    (userId : String) :
    (grantWithToken enc env userId).result ≠ .noVercelAccount
    ∧ (grantWithToken enc env userId).result ≠ .featureDisabled
    ∧ (grantWithToken enc env userId).result ≠ .notAuthenticated := by
  rcases hsel : selectTeam env with ⟨evs0, tr⟩
  rcases tr with e | tid
  · refine ⟨?_, ?_, ?_⟩ <;> simp [grantWithToken, hsel]
  · by_cases htid : truthy tid = true
    · rcases tid with _ | t
      · simp [truthy] at htid
      · rcases grantTryBlock_spec enc env.createCall env.insertOutcome userId t
          (bodyTeamName env.body) with ⟨_, hres, _⟩
        rcases hres with hres | ⟨iid, hres⟩ <;>
          refine ⟨?_, ?_, ?_⟩ <;> simp [grantWithToken, hsel, htid, hres]
    · have htid2 : truthy tid = false := by
        rcases h2 : truthy tid
        · rfl
        · exact absurd h2 htid
      refine ⟨?_, ?_, ?_⟩ <;> simp [grantWithToken, hsel, htid2]

/-- With the feature on, a session present and a usable first account row,
the grant handler runs the post-gate flow. -/
lemma grantPOST_gates {γ : Type} (enc : Json → γ) (env : GrantEnv)
    (u : String) (a : Account)
    (hF : env.featureEnabled = true) (hS : env.session = some u) (hu : u ≠ "")
    (ha : findAccount env.accountsTable u = some a)
    (htok : truthy a.accessToken = true) (hprov : a.providerId = "vercel") :
    grantPOST enc env = grantWithToken enc env u := by
  simp [grantPOST, hF, hS, hu, ha, htok, hprov]

/-- Claim C5 counterexample: the account lookup takes the FIRST account row
for the user with no provider filter, so a caller whose `github` row
precedes a fully usable `vercel` row in the table is rejected with the 400
outcome even though a vercel-linked row with a non-null access token
exists; likewise a `vercel` row with a non-null but empty token is
rejected, although the claim requires only a non-null token. -/
theorem grant_vercel_row_shadowed :
    ((⟨"u1", "vercel", some "vt"⟩ : Account) ∈ envProviderOrder.accountsTable
      ∧ (grantPOST (fun j => j) envProviderOrder).result = .noVercelAccount
      ∧ (grantPOST (fun j => j) envProviderOrder).result.status = 400)
    ∧ ((⟨"u1", "vercel", some ""⟩ : Account) ∈ envEmptyToken.accountsTable
      ∧ envEmptyToken.accountsTable.all (fun a => a.accessToken ≠ none)
      ∧ (grantPOST (fun j => j) envEmptyToken).result = .noVercelAccount) := by
  exact ⟨⟨by decide, rfl, rfl⟩, ⟨by decide, by decide, rfl⟩⟩

/-- Claim C5 as amended: past the feature-flag and session gates, the flow
proceeds to team selection if and only if the FIRST account row found for
the caller's user id (the lookup has no provider filter) has provider id
`vercel` and a truthy (non-null, non-empty) access token; otherwise the
handler returns the 400 no-linked-account outcome before any provider
network call is attempted. -/
theorem grant_account_gate {γ : Type} (enc : Json → γ) (env : GrantEnv)
    (u : String)
    (hF : env.featureEnabled = true) (hS : env.session = some u)
    (hu : u ≠ "") :
    ((grantPOST enc env).result ≠ .noVercelAccount
      ↔ ∃ a, findAccount env.accountsTable u = some a
          ∧ truthy a.accessToken = true ∧ a.providerId = "vercel")
    ∧ ((grantPOST enc env).result = .noVercelAccount →
        (grantPOST enc env).events = []
        ∧ (grantPOST enc env).written = none
        ∧ (grantPOST enc env).result.status = 400) := by
  rcases ha : findAccount env.accountsTable u with _ | a
  · have hrun : grantPOST enc env = ⟨.noVercelAccount, [], none⟩ := by
      simp [grantPOST, hF, hS, hu, ha]
    rw [hrun]
    constructor
    · constructor
      · intro h
        exact absurd rfl h
      · rintro ⟨a, ha2, _⟩
        exact Option.noConfusion ha2
    · intro _
      exact ⟨rfl, rfl, rfl⟩
  · by_cases htok : truthy a.accessToken = true
    · by_cases hprov : a.providerId = "vercel"
      · have hrun := grantPOST_gates enc env u a hF hS hu ha htok hprov
        rw [hrun]
        constructor
        · constructor
          · intro _
            exact ⟨a, rfl, htok, hprov⟩
          · intro _
            exact (grantWithToken_result enc env u).1
        · intro h
          exact absurd h (grantWithToken_result enc env u).1
      · have hrun : grantPOST enc env = ⟨.noVercelAccount, [], none⟩ := by
          simp [grantPOST, hF, hS, hu, ha, htok, hprov]
        rw [hrun]
        constructor
        · constructor
          · intro h
            exact absurd rfl h
          · rintro ⟨a2, ha2, htok2, hprov2⟩
            have heq : a = a2 := Option.some.inj ha2
            rw [← heq] at hprov2
            exact absurd hprov2 hprov
        · intro _
          exact ⟨rfl, rfl, rfl⟩
    · have hrun : grantPOST enc env = ⟨.noVercelAccount, [], none⟩ := by
        simp [grantPOST, hF, hS, hu, ha, htok]
      rw [hrun]
      constructor
      · constructor
        · intro h
          exact absurd rfl h
        · rintro ⟨a2, ha2, htok2, hprov2⟩
          have heq : a = a2 := Option.some.inj ha2
          rw [← heq] at htok2
          exact absurd htok2 htok
      · intro _
        exact ⟨rfl, rfl, rfl⟩

/-- Witness for `grant_account_gate`, at an environment whose first account
row is a usable vercel row: the flow proceeds past the account gate. -/
theorem grant_account_gate_witness :
    (grantPOST (fun j => j) envMissingApiKeyObj).result ≠ .noVercelAccount :=
  ((grant_account_gate (fun j => j) envMissingApiKeyObj "u1" rfl rfl
      (by decide)).1).2 ⟨⟨"u1", "vercel", some "vt"⟩, rfl, rfl, rfl⟩

/-- Claim C7 counterexample: a body that supplies `teamId` explicitly but
as the empty string is treated as truthiness-absent, so the Team Resolver
IS invoked and the resolved team id (here `tX`) is used instead of the
supplied one. -/
theorem grant_empty_teamId_invokes_resolver :
    envEmptyTeamSupplied.body = .ok ⟨some "", none⟩
    ∧ (grantPOST (fun j => j) envEmptyTeamSupplied).events
        = [.fetchTeams, .fetchCreateKey "tX"] := by
  exact ⟨rfl, rfl⟩

/-- Claim C7 as amended: for every grant request whose body supplies a
truthy (non-empty) `teamId`, the Team Resolver is never invoked (neither
resolver endpoint is fetched) and the supplied team id is used verbatim
for provisioning and for the persisted config. -/
theorem grant_explicit_team_bypasses_resolver {γ : Type} (enc : Json → γ)
    (env : GrantEnv) (u t : String) (b : BodyFields)
    (hF : env.featureEnabled = true) (hS : env.session = some u) (hu : u ≠ "")
    (ha : ∃ a, findAccount env.accountsTable u = some a
        ∧ truthy a.accessToken = true ∧ a.providerId = "vercel")
    (hb : env.body = .ok b) (ht : b.teamId = some t) (htne : t ≠ "") :
    Ev.fetchTeams ∉ (grantPOST enc env).events
    ∧ Ev.fetchUserinfo ∉ (grantPOST enc env).events
    ∧ Ev.fetchCreateKey t ∈ (grantPOST enc env).events
    ∧ ∀ r, (grantPOST enc env).written = some r →
        ∃ tok kid, r.config = enc (mkConfig tok kid t) := by
  rcases ha with ⟨a, ha, htok, hprov⟩
  have hrun := grantPOST_gates enc env u a hF hS hu ha htok hprov
  have hsup : suppliedTeamId env.body = some t := by
    simp [suppliedTeamId, hb, ht, htne]
  have hsel : selectTeam env = ([], .ok (some t)) := by
    simp [selectTeam, hsup]
  have htr : truthy (some t) = true := by
    simp [truthy, htne]
  rcases grantTryBlock_spec enc env.createCall env.insertOutcome u t
    (bodyTeamName env.body) with ⟨hev, _, hw⟩
  have hwt : grantWithToken enc env u
      = ⟨(grantTryBlock enc env.createCall env.insertOutcome u t
            (bodyTeamName env.body)).result,
         [.fetchCreateKey t],
         (grantTryBlock enc env.createCall env.insertOutcome u t
            (bodyTeamName env.body)).written⟩ := by
    simp [grantWithToken, hsel, htr, hev]
  rw [hrun, hwt]
  refine ⟨by simp, by simp, by simp, ?_⟩
  intro r hr
  rcases hw r hr with ⟨tok, kid, _, _, _, hconf⟩
  exact ⟨tok, kid, hconf⟩

/-- Witness for `grant_explicit_team_bypasses_resolver`: with an explicit
team id `t1` in the body, the run issues only the key-creation fetch. -/
theorem grant_explicit_team_bypasses_resolver_witness :
    Ev.fetchCreateKey "t1" ∈ (grantPOST (fun j => j) envMissingApiKeyObj).events :=
  (grant_explicit_team_bypasses_resolver (fun j => j) envMissingApiKeyObj
      "u1" "t1" ⟨some "t1", none⟩ rfl rfl (by decide)
      ⟨⟨"u1", "vercel", some "vt"⟩, rfl, by decide, rfl⟩
      rfl rfl (by decide)).2.2.1

/-- Claim C10: for every grant request in which remote provisioning
succeeds but the store insert afterwards fails (the insert throws, or it
returns no generated id), the response is the generic 500 creation-failure
outcome and no remote delete call is ever issued: the remotely created
credential is left live with no compensating cleanup. -/
theorem grant_insert_failure_leaks_remote_key {γ : Type} (enc : Json → γ)
    (env : GrantEnv) (u t s : String) (cb : CreateKeyBody) (evs0 : List Ev)
    (hF : env.featureEnabled = true) (hS : env.session = some u) (hu : u ≠ "")
    (ha : ∃ a, findAccount env.accountsTable u = some a
        ∧ truthy a.accessToken = true ∧ a.providerId = "vercel")
    (hsel : selectTeam env = (evs0, .ok (some t))) (htne : t ≠ "")
    (hcc : env.createCall = .resp true (.ok cb))
    (hcs : cb.apiKeyString = some s) (hs : s ≠ "")
    (hins : env.insertOutcome = .threw ∨ env.insertOutcome = .returned none) :
    (grantPOST enc env).result = .createFailed
    ∧ (grantPOST enc env).result.status = 500
    ∧ Ev.fetchCreateKey t ∈ (grantPOST enc env).events
    ∧ ∀ k t2, Ev.fetchDeleteKey k t2 ∉ (grantPOST enc env).events := by
  rcases ha with ⟨a, ha, htok, hprov⟩
  have hrun := grantPOST_gates enc env u a hF hS hu ha htok hprov
  have htr : truthy (some t) = true := by
    simp [truthy, htne]
  have hcr : createVercelApiKey env.createCall t
      = ([.fetchCreateKey t], .ok (some ⟨s, cb.apiKey.map (fun k => k.id)⟩)) := by
    simp [createVercelApiKey, hcc, hcs, hs]
  have hres : (grantTryBlock enc env.createCall env.insertOutcome u t
      (bodyTeamName env.body)).result = .createFailed := by
    rcases hins with hins | hins <;>
      simp [grantTryBlock, hcr, saveIntegration, hins]
  rcases grantTryBlock_spec enc env.createCall env.insertOutcome u t
    (bodyTeamName env.body) with ⟨hev, _, _⟩
  have hwt : grantWithToken enc env u
      = ⟨(grantTryBlock enc env.createCall env.insertOutcome u t
            (bodyTeamName env.body)).result,
         evs0 ++ [.fetchCreateKey t],
         (grantTryBlock enc env.createCall env.insertOutcome u t
            (bodyTeamName env.body)).written⟩ := by
    simp [grantWithToken, hsel, htr, hev]
  have hsevs : (selectTeam env).1 = evs0 := by
    rw [hsel]
  rw [hrun, hwt]
  refine ⟨hres, by rw [hres]; rfl, by simp, ?_⟩
  intro k t2 hmem
  rcases List.mem_append.1 hmem with hmem | hmem
  · have := selectTeam_events env (.fetchDeleteKey k t2) (by rw [hsevs]; exact hmem)
    rcases this with h | h <;> exact Ev.noConfusion h
  · exact Ev.noConfusion (List.mem_singleton.1 hmem)

/-- Witness for `grant_insert_failure_leaks_remote_key`: remote creation
succeeded, the insert returned no id, and the run ends in the generic 500
with the creation fetch issued and no remote delete. -/
theorem grant_insert_failure_leaks_remote_key_witness :
    (grantPOST (fun j => j) envInsertFails).result = .createFailed :=
  (grant_insert_failure_leaks_remote_key (fun j => j) envInsertFails
      "u1" "t1" "ak_123" ⟨some "ak_123", none⟩ [] rfl rfl (by decide)
      ⟨⟨"u1", "vercel", some "vt"⟩, rfl, by decide, rfl⟩
      rfl (by decide) rfl rfl (by decide) (Or.inr rfl)).1

/-- Claim C1 evaluated at its failing input (identity encryption, so the
stored config is its own decrypted form): when the provider's key-creation
response carries `apiKeyString` but no `apiKey` object, the grant path
still succeeds and writes a row with `isManaged = true` and
`type = "ai-gateway"` whose decrypted config has NO `managedKeyId` field at
all (`JSON.stringify` drops the undefined field), violating the invariant
that such rows carry a non-empty `managedKeyId`. -/
theorem grant_writes_managed_row_without_managedKeyId :
    (grantPOST (fun j => j) envMissingApiKeyObj).result = .success "int_1"
    ∧ (grantPOST (fun j => j) envMissingApiKeyObj).written
        = some ⟨"u1", "AI Gateway", "ai-gateway",
            Json.obj [("apiKey", "ak_123"), ("teamId", "t1")], true⟩
    ∧ getStr (Json.obj [("apiKey", "ak_123"), ("teamId", "t1")]) "managedKeyId"
        = none
    ∧ truthy (getStr (Json.obj [("apiKey", "ak_123"), ("teamId", "t1")])
        "managedKeyId") = false
    ∧ getStr (Json.obj [("apiKey", "ak_123"), ("teamId", "t1")]) "teamId"
        = some "t1" := by
  exact ⟨rfl, rfl, by decide, by decide, by decide⟩

end AWB
